import Mathlib

set_option autoImplicit false

/-!
Verification of the drastic/indigo metadata and object-storage layer.

The development shallowly embeds the Python source under src/ into Lean:

* tree_entry rows (collection.py) become a keyed list of TreeEntry records;
  normalized absolute paths are represented as lists of path segments, the
  root being the empty list, so that the path algebra merge and split of
  indigo.util (absent from src/, modelled from the spec) become list append
  and dropLast/getLast.
* The ACL codec of indigo.models.acl (absent from src/, modelled from the
  spec) maps the three levels read, write, read/write to distinct bitmasks
  and decodes unknown masks to the string unknown.
* data_object rows become a keyed list of chunk records; the zipfile
  decompression treats a blob abstractly as either raw bytes or an archive
  of named entries.
-/

/-- A normalized absolute path, as the list of its segments; the root is
the empty list. Modelled from the spec: indigo.util merge and split
(absent from src/) — merge appends one segment, split removes the last. -/
abbrev TPath := List String

/-- One access-control entry, mirroring the Ace user-defined type of the
backing-store schema. -/
structure Ace where
  acetype : String
  identifier : String
  aceflags : Nat
  acemask : Nat
deriving DecidableEq

/-- An ACL column value: a map from identifier to Ace, represented as an
association list with unique keys. -/
abbrev Acl := List (String × Ace)

def aclLookup (acl : Acl) (gid : String) : Option Ace :=
  (acl.find? (fun e => decide (e.1 = gid))).map (fun e => e.2)

/-- Insert-or-overwrite for the identifier-to-Ace map, mirroring the
per-key update semantics of a Cassandra map column. -/
def aclInsert (acl : Acl) (gid : String) (ace : Ace) : Acl :=
  if (acl.find? (fun e => decide (e.1 = gid))).isSome then
    acl.map (fun e => if e.1 = gid then (gid, ace) else e)
  else acl ++ [(gid, ace)]

/-- Modelled from the spec: indigo.models.acl bitmask for level read
(acl.py is absent from src/; the spec only requires the three levels to
map to distinct masks whose decode is stable). -/
def readMask : Nat := 1

/-- Modelled from the spec: indigo.models.acl bitmask for level write. -/
def writeMask : Nat := 2

/-- Modelled from the spec: indigo.models.acl str_to_acemask, the forward
direction of the level codec. The Bool flag distinguishes object from
container masks in the source; the model uses one mask family. -/
def str_to_acemask (level : String) (_isObject : Bool) : Nat :=
  if level = "read" then readMask
  else if level = "write" then writeMask
  else if level = "read/write" then readMask + writeMask
  else 0

/-- Modelled from the spec: indigo.models.acl acemask_to_str, the inverse
of str_to_acemask; masks outside the three known levels decode to the
string unknown and are ignored by permission resolution. -/
def acemask_to_str (mask : Nat) (_isObject : Bool) : String :=
  if mask = readMask then "read"
  else if mask = writeMask then "write"
  else if mask = readMask + writeMask then "read/write"
  else "unknown"

/-- One row of the tree_entry table, keyed by (container, name).
Collection self records have name a dot; child records carry the child
name, with a trailing slash for child collections. -/
structure TreeEntry where
  container : TPath
  name : String
  id : String
  container_id : String
  container_acl : Acl
deriving DecidableEq

/-- The tree_entry table: a list of rows on which every operation goes
through the (container, name) key, mirroring the keyed wide-column
store. -/
abbrev TreeDB := List TreeEntry

def dbFind (db : TreeDB) (c : TPath) (n : String) : Option TreeEntry :=
  db.find? (fun e => decide (e.container = c ∧ e.name = n))

/-- Upsert of one row, keyed by (container, name): the write replaces any
row with the same primary key, mirroring the store's overwrite-on-key
semantics. -/
def dbPut (db : TreeDB) (e : TreeEntry) : TreeDB :=
  db.filter (fun x => !(decide (x.container = e.container ∧ x.name = e.name))) ++ [e]

/-- Deletion of one row by primary key; a no-op when the key is absent. -/
def dbDeleteRow (db : TreeDB) (c : TPath) (n : String) : TreeDB :=
  db.filter (fun x => !(decide (x.container = c ∧ x.name = n)))

/-- Collection.find of collection.py: an exact self-record lookup at
(path, dot). -/
def collectionFind (db : TreeDB) (path : TPath) : Option TreeEntry :=
  dbFind db path "."

/-- A user as consumed by the permission resolver: drastic/models/user.py
stores an administrator flag and a list of group ids. -/
structure User where
  administrator : Bool
  groups : List String

/-- The set of actions the resolver can grant, as one flag per action of
the fixed universe read, write, delete, edit. -/
structure ActionSet where
  read : Bool
  write : Bool
  delete : Bool
  edit : Bool
deriving DecidableEq

def ActionSet.empty : ActionSet := ⟨false, false, false, false⟩

def ActionSet.full : ActionSet := ⟨true, true, true, true⟩

def ActionSet.contains (a : ActionSet) (s : String) : Bool :=
  if s = "read" then a.read
  else if s = "write" then a.write
  else if s = "delete" then a.delete
  else if s = "edit" then a.edit
  else false

/-- One iteration of the loop body of Collection.get_authorized_actions:
the actions added for one decoded level. -/
def applyAce (acts : ActionSet) (level : String) : ActionSet :=
  if level = "read" then { acts with read := true }
  else if level = "write" then { acts with write := true, delete := true, edit := true }
  else if level = "read/write" then
    { acts with read := true, write := true, delete := true, edit := true }
  else acts

/-- One identifier of the loop of Collection.get_authorized_actions: if
the identifier keys an Ace of the node's ACL, its mask is decoded and
the corresponding actions are added. -/
def aclStep (acl : Acl) (acts : ActionSet) (gid : String) : ActionSet :=
  match aclLookup acl gid with
  | none => acts
  | some ace => applyAce acts (acemask_to_str ace.acemask false)

/-- The loop of Collection.get_authorized_actions over the user's groups
plus the sentinel AUTHENTICATED@, run when the node's own ACL is
non-empty. -/
def computeActions (user : User) (acl : Acl) : ActionSet :=
  (user.groups ++ ["AUTHENTICATED@"]).foldl (aclStep acl) ActionSet.empty

/-- Collection.get_authorized_actions of collection.py, on the collection
whose self record carries the given acl at the given path. When the own
ACL is empty and the node is not the root, the parent is looked up with
no not-found check: an absent parent is the AttributeError of the source,
modelled as the value none. -/
def getAuthorizedActions (db : TreeDB) (user : User) (acl : Acl) (path : TPath) :
    Option ActionSet :=
  if acl = [] then
    if _hp : path = [] then some ActionSet.empty
    else
      match collectionFind db path.dropLast with
      | none => none
      | some e => getAuthorizedActions db user e.container_acl path.dropLast
  else some (computeActions user acl)
termination_by path.length
decreasing_by
  rw [List.length_dropLast]
  exact Nat.sub_lt (List.length_pos.mpr _hp) Nat.one_pos

/-- Collection.user_can of collection.py: the administrator short-circuit,
then membership in the resolved action set. -/
def user_can (db : TreeDB) (user : User) (acl : Acl) (path : TPath) (action : String) :
    Option Bool :=
  if user.administrator then some true
  else
    match getAuthorizedActions db user acl path with
    | none => none
    | some acts => some (acts.contains action)

/-- Errors raised by Collection.create, from indigo.models.errors (the
module is absent from src/; the three names come from the spec's error
kinds). -/
inductive CreateErr where
  | noSuchCollection
  | resourceConflict
  | collectionConflict
deriving DecidableEq

/-- Modelled from the spec: Resource.find at merge(container, name)
(resource.py is absent from src/). Per the data model, an object occupies
the target name exactly when the parent holds a child row under the raw
name, without the trailing slash that marks child collections. -/
def resourceFind (db : TreeDB) (container : TPath) (name : String) : Option TreeEntry :=
  dbFind db container name

/-- Collection.create of collection.py: parent-existence check, object
conflict check, collection conflict check, then the self record and the
parent's child record are written sharing the generated identity newId
(the container_id default of the TreeEntry model, absent from src/, is
the id generator), and the fresh self record is looked up again for the
returned Collection. -/
def collectionCreate (db : TreeDB) (newId : String) (container : TPath) (name : String) :
    Except CreateErr (TreeDB × Option TreeEntry) :=
  let path := container ++ [name]
  match collectionFind db container with
  | none => .error .noSuchCollection
  | some _ =>
    match resourceFind db container name with
    | some _ => .error .resourceConflict
    | none =>
      match collectionFind db path with
      | some _ => .error .collectionConflict
      | none =>
        let selfE : TreeEntry := ⟨path, ".", newId, newId, []⟩
        let db1 := dbPut db selfE
        let childE : TreeEntry := ⟨container, name ++ "/", newId, "", []⟩
        let db2 := dbPut db1 childE
        .ok (db2, collectionFind db2 path)

/-- The name attribute of a Collection at a path: the basename, or Home
for the root, as set in the constructor of collection.py. -/
def pathBasename (path : TPath) : String := path.getLastD "Home"

/-- Collection.delete of collection.py: the raw statement DELETE FROM
tree_entry WHERE container equals the path removes the whole partition
(the self record and every child row of this collection), then the
parent's child record for this collection is deleted when present. -/
def collectionDelete (db : TreeDB) (path : TPath) : TreeDB :=
  let db1 := db.filter (fun e => !(decide (e.container = path)))
  dbDeleteRow db1 path.dropLast (pathBasename path ++ "/")

/-- A chunk blob: raw bytes, or the bytes of an archive with named
entries, the abstraction of what the zipfile module reads. -/
inductive Blob where
  | raw : String → Blob
  | archive : List (String × String) → Blob
deriving DecidableEq

/-- One row of the data_object table, keyed by partition key uuid and
clustering key sequence_number. -/
structure ChunkRow where
  uuid : String
  sequence_number : Int
  blob : Blob
  compressed : Bool
deriving DecidableEq

abbrev ObjectDB := List ChunkRow

/-- The partition read DataObject.objects.filter on a uuid: the store
returns the partition's rows ordered by the clustering key
sequence_number ascending. -/
def objectsFilter (db : ObjectDB) (u : String) : List ChunkRow :=
  (db.filter (fun r => decide (r.uuid = u))).insertionSort
    (fun a b => a.sequence_number ≤ b.sequence_number)

/-- Reading one named entry from an archive, the model of
zipfile.ZipFile read. -/
def zipRead (entries : List (String × String)) (n : String) : Option String :=
  (entries.find? (fun e => decide (e.1 = n))).map (fun e => e.2)

/-- The per-chunk body of DataObject.chunk_content: a compressed chunk is
opened as an archive and the entry named data is extracted (a blob that
is not an archive fails, as the zipfile open would); an uncompressed
chunk is yielded as stored. -/
def decodeChunk (r : ChunkRow) : Option Blob :=
  if r.compressed then
    match r.blob with
    | Blob.archive es => (zipRead es "data").map Blob.raw
    | Blob.raw _ => none
  else some r.blob

/-- DataObject.chunk_content of data_object.py: the partition's chunks in
clustering order, each decoded. -/
def chunk_content (db : ObjectDB) (u : String) : List (Option Blob) :=
  (objectsFilter db u).map decodeChunk

/-- The static_fields list of data_object.py. -/
def static_fields : List String :=
  ["checksum", "size", "metadata", "mimetype", "alt_url",
   "create_ts", "modified_ts", "type", "acl", "treepath"]

/-- The attributes of a DataObject instance used by update. -/
structure DataObjectRow where
  uuid : String
  sequence_number : Int

/-- Attribute access self.container on a DataObject instance: the model
of data_object.py declares no column named container (its columns are
uuid, checksum, size, metadata, mimetype, alt_url, create_ts,
modified_ts, type, acl, treepath, sequence_number, blob, compressed), so
the access raises AttributeError, modelled as none. -/
def dataObjectContainer (_o : DataObjectRow) : Option String := none

/-- One executed CQL update of DataObject.update, with the values bound
to the key columns of its WHERE clause. -/
inductive UpdateStmt where
  | staticUpdate (field : String) (value : String) (uuidKey : String)
  | chunkUpdate (field : String) (value : String) (uuidKey : String) (seqKey : Int)
deriving DecidableEq

/-- DataObject.update of data_object.py: each keyword argument named in
static_fields is written by UPDATE data_object WHERE uuid binds
self.uuid; any other argument is written by UPDATE data_object WHERE
uuid and sequence_number bind self.container and self.sequence_number,
so the uuid key receives the container attribute, whose access fails. -/
def dataObjectUpdate (o : DataObjectRow) :
    List (String × String) → Except String (List UpdateStmt)
  | [] => .ok []
  | (arg, v) :: rest =>
    if arg ∈ static_fields then
      match dataObjectUpdate o rest with
      | .error e => .error e
      | .ok stmts => .ok (UpdateStmt.staticUpdate arg v o.uuid :: stmts)
    else
      match dataObjectContainer o with
      | none => .error "AttributeError: container"
      | some c =>
        match dataObjectUpdate o rest with
        | .error e => .error e
        | .ok stmts => .ok (UpdateStmt.chunkUpdate arg v c o.sequence_number :: stmts)

/-- Lookup in a string-to-string dictionary represented as an association
list with unique keys. -/
def strMapLookup (m : List (String × String)) (k : String) : Option String :=
  (m.find? (fun e => decide (e.1 = k))).map (fun e => e.2)

/-- Insert-or-overwrite in a string-to-string dictionary. -/
def strMapInsert (m : List (String × String)) (k v : String) : List (String × String) :=
  if (m.find? (fun e => decide (e.1 = k))).isSome then
    m.map (fun e => if e.1 = k then (k, v) else e)
  else m ++ [(k, v)]

/-- ASCII uppercase of one character, the model of the Python str.upper
used on group identifiers. -/
def asciiUpperChar (c : Char) : Char :=
  if 'a' ≤ c ∧ c ≤ 'z' then Char.ofNat (c.toNat - 32) else c

/-- ASCII uppercase of a string. -/
def asciiUpper (s : String) : String :=
  String.mk (s.data.map asciiUpperChar)

/-- The access dictionary built by DataObject.update_acl: identifiers of
the read list map to read, identifiers of the write list map to write,
and an identifier already present when the write loop reaches it is
upgraded to read/write. -/
def buildAccess (read_access write_access : List String) : List (String × String) :=
  let afterRead := read_access.foldl (fun m gid => strMapInsert m gid "read") []
  write_access.foldl
    (fun m gid =>
      if (strMapLookup m gid).isSome then strMapInsert m gid "read/write"
      else strMapInsert m gid "write")
    afterRead

/-- Cassandra map-append semantics of the statement SET acl = acl + m:
the entries of m are added to the stored map, overwriting on equal key
and keeping every other existing entry. -/
def aclMapAdd (old : Acl) (m : Acl) : Acl :=
  m.foldl (fun acc e => aclInsert acc e.1 e.2) old

/-- DataObject.update_acl of data_object.py: builds the access
dictionary, resolves each identifier through Group.find_by_uuid
(modelled from the spec as the groups environment, group.py being absent
from src/) or the AUTHENTICATED@ sentinel, drops unresolvable
identifiers, then executes UPDATE data_object SET acl = acl + built on
the object's stored ACL. -/
def dataObjectUpdateAcl (groups : String → Option String) (oldAcl : Acl)
    (read_access write_access : List String) : Acl :=
  let access := buildAccess read_access write_access
  let newEntries : Acl := access.foldl
    (fun ls e =>
      match groups e.1 with
      | some gname => ls ++ [(e.1, ⟨"ALLOW", gname, 0, str_to_acemask e.2 true⟩)]
      | none =>
        if asciiUpper e.1 = "AUTHENTICATED@" then
          ls ++ [(e.1, ⟨"ALLOW", "AUTHENTICATED@", 0, str_to_acemask e.2 true⟩)]
        else ls)
    []
  aclMapAdd oldAcl newEntries

/-- DataObject.create_acl of data_object.py, which delegates to
update_acl unchanged. -/
def dataObjectCreateAcl (groups : String → Option String) (oldAcl : Acl)
    (read_access write_access : List String) : Acl :=
  dataObjectUpdateAcl groups oldAcl read_access write_access

/-- Splitting a list of characters on a separator, keeping empty fields,
the model of the Python str.split with an explicit separator. -/
def splitCharAux (sep : Char) : List Char → List Char → List String
  | [], acc => [String.mk acc.reverse]
  | c :: cs, acc =>
    if c = sep then String.mk acc.reverse :: splitCharAux sep cs []
    else splitCharAux sep cs (c :: acc)

def pySplitChar (sep : Char) (s : String) : List String :=
  splitCharAux sep s.data []

/-- Single-character replacement, the model of the Python str.replace
with one-character arguments. -/
def replaceChar (a b : Char) (s : String) : String :=
  String.mk (s.data.map (fun c => if c = a then b else c))

/-- ASCII lowercase of one character, the model of the Python str.lower
on the indexed attribute values. -/
def asciiLowerChar (c : Char) : Char :=
  if 'A' ≤ c ∧ c ≤ 'Z' then Char.ofNat (c.toNat + 32) else c

def asciiLower (s : String) : String :=
  String.mk (s.data.map asciiLowerChar)

/-- Whitespace strip at both ends, the model of the Python str.strip. -/
def pyStrip (s : String) : String :=
  String.mk (((s.data.dropWhile Char.isWhitespace).reverse.dropWhile Char.isWhitespace).reverse)

/-- The helper clean of SearchIndex2.index: an empty value yields no
tokens, otherwise lowercase, turn dots and underscores into spaces, and
split on the space character. -/
def clean (t : String) : List String :=
  if t = "" then []
  else pySplitChar ' ' (replaceChar '_' ' ' (replaceChar '.' ' ' (asciiLower t)))

/-- The helper clean_full of SearchIndex2.index: the whole value
lowercased, keeping every character. -/
def clean_full (t : String) : String :=
  if t = "" then "" else asciiLower t

/-- SearchIndex2.is_stop_word of search2.py. -/
def is_stop_word (term : String) : Bool :=
  decide (term ∈ ["a", "an", "and", "the", "of", "is", "in", "it", "or", "to"])

/-- The value of one attribute of an indexed object: a string, or a
dictionary of strings. -/
inductive AttrVal where
  | str : String → AttrVal
  | dict : List (String × String) → AttrVal

/-- One value of the metadata dictionary returned by get_metadata: a
string or a list of strings. -/
inductive MetaVal where
  | str : String → MetaVal
  | list : List String → MetaVal

/-- The object handed to SearchIndex2.index: its plain attributes, its
metadata dictionary, its id and its class name. -/
structure IndexedObject where
  attrs : String → AttrVal
  metadata : List (String × MetaVal)
  id : String
  className : String

/-- The metadata branch of SearchIndex2.index: each value (or each
element of a list value) is stripped and tokenized by clean under the
term type metadata; key names are not tokenized. -/
def metaValTerms : MetaVal → List (String × String)
  | .str v => (clean (pyStrip v)).map (fun el => ("metadata", el))
  | .list vs => vs.flatMap (fun vv => (clean (pyStrip vv)).map (fun el => ("metadata", el)))

/-- The plain-attribute branch of SearchIndex2.index: the tokens of
clean, followed by the whole value through clean_full; dictionary-valued
attributes tokenize each stripped value the same way. -/
def attrTerms (f : String) : AttrVal → List (String × String)
  | .dict d =>
    d.flatMap (fun kv =>
      (clean (pyStrip kv.2)).map (fun el => (f, el)) ++ [(f, clean_full (pyStrip kv.2))])
  | .str s => (clean s).map (fun el => (f, el)) ++ [(f, clean_full s)]

/-- The term list gathered by SearchIndex2.index before filtering:
metadata terms first when the metadata field is requested, then the
terms of every other requested field. -/
def searchIndexTerms (obj : IndexedObject) (fields : List String) : List (String × String) :=
  let metaTerms :=
    if "metadata" ∈ fields then obj.metadata.flatMap (fun kv => metaValTerms kv.2) else []
  let fields2 := if "metadata" ∈ fields then fields.erase "metadata" else fields
  metaTerms ++ fields2.flatMap (fun f => attrTerms f (obj.attrs f))

/-- One row of the search_index table. -/
structure IndexRow where
  term : String
  term_type : String
  object_type : String
  object_id : String
deriving DecidableEq

/-- SearchIndex2.index of search2.py: every gathered term that is not a
stop word and is at least two characters long produces one index row; no
deduplication happens. -/
def searchIndex2Index (obj : IndexedObject) (fields : List String) : List IndexRow :=
  ((searchIndexTerms obj fields).filter
    (fun e => !(is_stop_word e.2) && decide (e.2.length ≥ 2))).map
    (fun e => ⟨e.2, e.1, obj.className, obj.id⟩)

/-- Number of rows of the tree_entry table carrying a given primary
key. -/
def dbCount (db : TreeDB) (c : TPath) (n : String) : Nat :=
  (db.filter (fun e => decide (e.container = c ∧ e.name = n))).length

theorem find?_of_filterOut (db : TreeDB) (p : TreeEntry → Bool) :
    ((db.filter fun x => !(p x)).find? p) = none := by
  rw [List.find?_eq_none]
  intro x hx
  rcases List.mem_filter.mp hx with ⟨-, hpx⟩
  simp at hpx
  simp [hpx]

theorem filter_of_filterOut (db : TreeDB) (p : TreeEntry → Bool) :
    ((db.filter fun x => !(p x)).filter p) = [] := by
  rw [List.filter_eq_nil_iff]
  intro x hx
  rcases List.mem_filter.mp hx with ⟨-, hpx⟩
  simp at hpx
  simp [hpx]

theorem find?_filter_of_imp (l : List TreeEntry) (p q : TreeEntry → Bool)
    (h : ∀ x, q x = true → p x = true) : (l.filter p).find? q = l.find? q := by
  induction l with
  | nil => rfl
  | cons a t ih =>
    by_cases hq : q a = true
    · have hp := h a hq
      simp [List.filter_cons, hp, hq, ih]
    · by_cases hp : p a = true
      · simp [List.filter_cons, hp, hq, ih]
      · simp [List.filter_cons, hp, hq, ih]

theorem filter_filter_of_imp (l : List TreeEntry) (p q : TreeEntry → Bool)
    (h : ∀ x, q x = true → p x = true) : (l.filter p).filter q = l.filter q := by
  induction l with
  | nil => rfl
  | cons a t ih =>
    by_cases hq : q a = true
    · have hp := h a hq
      simp [List.filter_cons, hp, hq, ih]
    · by_cases hp : p a = true
      · simp [List.filter_cons, hp, hq, ih]
      · simp [List.filter_cons, hp, hq, ih]

theorem dbFind_dbPut_same (db : TreeDB) (e : TreeEntry) :
    dbFind (dbPut db e) e.container e.name = some e := by
  unfold dbFind dbPut
  rw [List.find?_append, find?_of_filterOut]
  simp

theorem dbFind_dbPut_ne (db : TreeDB) (e : TreeEntry) (c : TPath) (n : String)
    (h : ¬(e.container = c ∧ e.name = n)) :
    dbFind (dbPut db e) c n = dbFind db c n := by
  unfold dbFind dbPut
  rw [List.find?_append]
  have h1 : ((db.filter fun x => !(decide (x.container = e.container ∧ x.name = e.name))).find?
      fun x => decide (x.container = c ∧ x.name = n)) =
      db.find? fun x => decide (x.container = c ∧ x.name = n) := by
    apply find?_filter_of_imp
    intro x hx
    have hx' : x.container = c ∧ x.name = n := of_decide_eq_true hx
    have hne : ¬(x.container = e.container ∧ x.name = e.name) := by
      intro hcon
      exact h ⟨hcon.1.symm.trans hx'.1, hcon.2.symm.trans hx'.2⟩
    simp [hne]
  rw [h1]
  have h2 : (List.find? (fun x => decide (x.container = c ∧ x.name = n)) [e]) = none := by
    simp [h]
  rw [h2]
  cases db.find? fun x => decide (x.container = c ∧ x.name = n) <;> rfl

theorem dbCount_dbPut_same (db : TreeDB) (e : TreeEntry) :
    dbCount (dbPut db e) e.container e.name = 1 := by
  unfold dbCount dbPut
  rw [List.filter_append, filter_of_filterOut]
  simp

theorem dbCount_dbPut_ne (db : TreeDB) (e : TreeEntry) (c : TPath) (n : String)
    (h : ¬(e.container = c ∧ e.name = n)) :
    dbCount (dbPut db e) c n = dbCount db c n := by
  unfold dbCount dbPut
  rw [List.filter_append]
  have h1 : ((db.filter fun x => !(decide (x.container = e.container ∧ x.name = e.name))).filter
      fun x => decide (x.container = c ∧ x.name = n)) =
      db.filter fun x => decide (x.container = c ∧ x.name = n) := by
    apply filter_filter_of_imp
    intro x hx
    have hx' : x.container = c ∧ x.name = n := of_decide_eq_true hx
    have hne : ¬(x.container = e.container ∧ x.name = e.name) := by
      intro hcon
      exact h ⟨hcon.1.symm.trans hx'.1, hcon.2.symm.trans hx'.2⟩
    simp [hne]
  have h2 : (List.filter (fun x => decide (x.container = c ∧ x.name = n)) [e]) = [] := by
    simp [h]
  rw [h1, h2]
  simp

theorem self_ne_append_singleton (l : TPath) (a : String) : l ≠ l ++ [a] := by
  intro h
  have := congrArg List.length h
  simp at this

theorem append_slash_ne_dot (name : String) : name ++ "/" ≠ "." := by
  intro h
  have hd := congrArg String.data h
  rw [String.data_append] at hd
  have hlen := congrArg List.length hd
  rw [List.length_append] at hlen
  have : name.data.length = 0 := by
    simp [String.data] at hlen ⊢
    omega
  have hnil : name.data = [] := List.eq_nil_of_length_eq_zero this
  rw [hnil] at hd
  simp at hd

theorem append_slash_ne_self (name : String) : name ++ "/" ≠ name := by
  intro h
  have hd := congrArg String.data h
  rw [String.data_append] at hd
  have hlen := congrArg List.length hd
  rw [List.length_append] at hlen
  simp [String.data] at hlen

/-- C1: the claim says update_acl (and create_acl, which delegates to it)
installs the ACL built from the two lists as the object's complete new
ACL with replace semantics, every identifier absent from both lists
losing all access. The code instead executes UPDATE data_object SET acl
= acl + built, the map-append form, so a stored identifier absent from
both lists keeps its entry: evaluated at a stored ACL holding g1 and the
call update_acl with read list empty and write list holding only the
authenticated sentinel, g1 retains its full previous Ace while the new
entry is written beside it, and create_acl returns the same state. This
contradicts the docstrings of update_acl and create_acl, which both
promise that the existing ACL is replaced. -/
theorem C1_update_acl_merges_instead_of_replacing :
    aclLookup (dataObjectUpdateAcl (fun _ => none)
        [("g1", ⟨"ALLOW", "G1", 0, 1⟩)] [] ["authenticated@"]) "g1"
      = some ⟨"ALLOW", "G1", 0, 1⟩ ∧
    aclLookup (dataObjectUpdateAcl (fun _ => none)
        [("g1", ⟨"ALLOW", "G1", 0, 1⟩)] [] ["authenticated@"]) "authenticated@"
      = some ⟨"ALLOW", "AUTHENTICATED@", 0, writeMask⟩ ∧
    dataObjectCreateAcl (fun _ => none) [("g1", ⟨"ALLOW", "G1", 0, 1⟩)] [] ["authenticated@"]
      = dataObjectUpdateAcl (fun _ => none) [("g1", ⟨"ALLOW", "G1", 0, 1⟩)] [] ["authenticated@"] :=
  ⟨by decide, by decide, rfl⟩

/-- C2 counterexample: get_authorized_actions performs no administrator
check, so for an administrator with no groups at the root collection
with an empty ACL it returns the empty action set, not the full set the
claim promises. -/
theorem C2_resolver_ignores_admin_counterexample :
    getAuthorizedActions [] ⟨true, []⟩ [] [] = some ActionSet.empty ∧
    ActionSet.empty ≠ ActionSet.full := by
  constructor
  · simp [getAuthorizedActions]
  · decide

/-- C2 amended: the administrator short-circuit lives in user_can, which
returns true for every action and every node as soon as
user.administrator is set, before the resolver ever runs; the resolver
get_authorized_actions itself contains no administrator check. -/
theorem C2_admin_bypass_in_user_can (db : TreeDB) (user : User) (acl : Acl)
    (path : TPath) (action : String) (h : user.administrator = true) :
    user_can db user acl path action = some true := by
  simp [user_can, h]

theorem C2_admin_bypass_in_user_can_witness :
    user_can [] ⟨true, ["g"]⟩ [("x", ⟨"ALLOW", "x", 0, 7⟩)] ["a", "b"] "delete" = some true :=
  C2_admin_bypass_in_user_can [] ⟨true, ["g"]⟩ [("x", ⟨"ALLOW", "x", 0, 7⟩)] ["a", "b"] "delete" rfl

/-- Concrete tree for the C7 counterexample: a root, a collection at a
with one child collection at a/b. -/
def dbC7 : TreeDB :=
  [⟨[], ".", "r", "r", []⟩,
   ⟨[], "a/", "i1", "", []⟩,
   ⟨["a"], ".", "i1", "i1", []⟩,
   ⟨["a"], "b/", "i2", "", []⟩,
   ⟨["a", "b"], ".", "i2", "i2", []⟩]

/-- C7 counterexample: delete runs DELETE FROM tree_entry WHERE
container equals the path, which wipes the whole partition. The child
row (a, b slash) referencing the descendant b is neither the self record
of a nor the parent's child record for a, yet it is removed by
deleteCollection at a, so the claim that every row other than those two
is left unchanged fails. -/
theorem C7_delete_not_frame_counterexample :
    (⟨["a"], "b/", "i2", "", []⟩ : TreeEntry) ∈ dbC7 ∧
    (⟨["a"], "b/", "i2", "", []⟩ : TreeEntry) ∉ collectionDelete dbC7 ["a"] ∧
    (⟨["a"], "b/", "i2", "", []⟩ : TreeEntry).name ≠ "." ∧
    ¬((⟨["a"], "b/", "i2", "", []⟩ : TreeEntry).container = (["a"] : TPath).dropLast ∧
      (⟨["a"], "b/", "i2", "", []⟩ : TreeEntry).name = pathBasename ["a"] ++ "/") := by
  decide

/-- C7 amended: deleteCollection at a path removes exactly the rows
whose container equals the path (the self record together with every
child-reference row of the collection) plus the parent's child record
for that collection; every other row, in particular the self records of
descendants, is unchanged, and nothing recurses. -/
theorem C7_delete_partition_frame (db : TreeDB) (path : TPath) (e : TreeEntry) :
    e ∈ collectionDelete db path ↔
      e ∈ db ∧ e.container ≠ path ∧
        ¬(e.container = path.dropLast ∧ e.name = pathBasename path ++ "/") := by
  unfold collectionDelete dbDeleteRow
  simp [List.mem_filter, and_assoc]
  tauto

/-- Concrete object for the C9 theorems: every plain attribute reads the
cat sentence, and the metadata holds it once under one key. -/
def objC9 : IndexedObject :=
  ⟨fun _ => AttrVal.str "the cat sat", [("k", MetaVal.str "the cat sat")], "oid", "Collection"⟩

/-- C9 counterexample: indexing the plain attribute name whose value is
the cat sentence writes rows for cat and sat but also one row whose term
is the entire lowercased value, because the attribute branch of index
appends clean_full of the value; so the claim that rows are written for
exactly the term set cat, sat fails. -/
theorem C9_whole_value_term_counterexample :
    (searchIndex2Index objC9 ["name"]).map (fun r => r.term)
      = ["cat", "sat", "the cat sat"] ∧
    ("the cat sat" ∈ (searchIndex2Index objC9 ["name"]).map (fun r => r.term)) ∧
    ("the cat sat" ∉ (["cat", "sat"] : List String)) := by
  decide

/-- C9 amended: for metadata values the tokenizer behaves exactly as the
claim says, indexing only cat and sat; for every other indexed
attribute the code additionally writes one row for the whole lowercased
value, so that attribute value yields the terms cat, sat and the full
sentence. -/
theorem C9_tokenization_terms :
    (searchIndex2Index objC9 ["metadata"]).map (fun r => r.term) = ["cat", "sat"] ∧
    (searchIndex2Index objC9 ["metadata"]).map (fun r => r.term_type) = ["metadata", "metadata"] ∧
    (searchIndex2Index objC9 ["name"]).map (fun r => r.term) = ["cat", "sat", "the cat sat"] := by
  decide

/-- C8: the claim routes every static field through an identity-scoped
update keyed on uuid alone — which the code does — and every other
field through a chunk-scoped update keyed on (uuid, sequence_number) of
the receiving chunk row. The code instead binds the uuid key parameter
of the chunk-scoped statement to self.container, an attribute the
DataObject model does not define, so any update with a non-static field
raises AttributeError instead of performing the keyed write. -/
theorem C8_update_field_routing (o : DataObjectRow) (arg v : String) :
    (arg ∈ static_fields →
      dataObjectUpdate o [(arg, v)] = .ok [UpdateStmt.staticUpdate arg v o.uuid]) ∧
    (arg ∉ static_fields →
      dataObjectUpdate o [(arg, v)] = .error "AttributeError: container") := by
  constructor
  · intro h
    simp [dataObjectUpdate, h]
  · intro h
    simp [dataObjectUpdate, h, dataObjectContainer]

theorem C8_update_field_routing_witness :
    dataObjectUpdate ⟨"u1", 3⟩ [("size", "9")] = .ok [UpdateStmt.staticUpdate "size" "9" "u1"] ∧
    dataObjectUpdate ⟨"u1", 3⟩ [("blob", "zz")] = .error "AttributeError: container" :=
  ⟨(C8_update_field_routing ⟨"u1", 3⟩ "size" "9").1 (by decide),
   (C8_update_field_routing ⟨"u1", 3⟩ "blob" "zz").2 (by decide)⟩

instance : IsTotal ChunkRow (fun a b => a.sequence_number ≤ b.sequence_number) :=
  ⟨fun a b => Int.le_total a.sequence_number b.sequence_number⟩

instance : IsTrans ChunkRow (fun a b => a.sequence_number ≤ b.sequence_number) :=
  ⟨fun _ _ _ h1 h2 => le_trans h1 h2⟩

/-- C6: chunk_content yields the partition's chunks in ascending
sequence_number order for every store and identity; gaps are allowed, as
in the stored rows with sequence numbers 2 and 0 (listed out of order)
read back as ab then cd; and a chunk flagged compressed whose blob is a
single-entry archive holding xy under the entry named data yields xy in
place of the raw blob. -/
theorem C6_chunk_reconstruction :
    (∀ (db : ObjectDB) (u : String),
        List.Sorted (fun x y => x ≤ y)
          ((objectsFilter db u).map (fun r => r.sequence_number))) ∧
    chunk_content [⟨"u", 2, Blob.raw "cd", false⟩, ⟨"u", 0, Blob.raw "ab", false⟩] "u"
      = [some (Blob.raw "ab"), some (Blob.raw "cd")] ∧
    chunk_content [⟨"u", 0, Blob.archive [("data", "xy")], true⟩, ⟨"u", 1, Blob.raw "zz", false⟩] "u"
      = [some (Blob.raw "xy"), some (Blob.raw "zz")] := by
  refine ⟨?_, by decide, by decide⟩
  intro db u
  have hs := List.sorted_insertionSort
    (fun a b : ChunkRow => a.sequence_number ≤ b.sequence_number)
    (db.filter (fun r => decide (r.uuid = u)))
  unfold objectsFilter
  exact List.Pairwise.map _ (fun a b h => h) hs

theorem collectionCreate_ok_inv (db : TreeDB) (newId : String) (container : TPath)
    (name : String) (db2 : TreeDB) (res : Option TreeEntry)
    (h : collectionCreate db newId container name = .ok (db2, res)) :
    (∃ pe, collectionFind db container = some pe) ∧
    resourceFind db container name = none ∧
    collectionFind db (container ++ [name]) = none ∧
    db2 = dbPut (dbPut db ⟨container ++ [name], ".", newId, newId, []⟩)
            ⟨container, name ++ "/", newId, "", []⟩ := by
  unfold collectionCreate at h
  split at h
  · exact absurd h (by simp)
  next pe hparent =>
    split at h
    · exact absurd h (by simp)
    next hres =>
      dsimp only at h
      split at h
      · exact absurd h (by simp)
      next htarget =>
        rw [Except.ok.injEq, Prod.mk.injEq] at h
        exact ⟨⟨pe, hparent⟩, hres, htarget, h.1.symm⟩

theorem create_writes_self (db : TreeDB) (newId : String) (container : TPath) (name : String) :
    collectionFind (dbPut (dbPut db ⟨container ++ [name], ".", newId, newId, []⟩)
        ⟨container, name ++ "/", newId, "", []⟩) (container ++ [name])
      = some ⟨container ++ [name], ".", newId, newId, []⟩ := by
  unfold collectionFind
  rw [dbFind_dbPut_ne]
  · exact dbFind_dbPut_same db ⟨container ++ [name], ".", newId, newId, []⟩
  · intro hcon
    exact self_ne_append_singleton container name hcon.1

theorem create_writes_child (db : TreeDB) (newId : String) (container : TPath) (name : String) :
    dbFind (dbPut (dbPut db ⟨container ++ [name], ".", newId, newId, []⟩)
        ⟨container, name ++ "/", newId, "", []⟩) container (name ++ "/")
      = some ⟨container, name ++ "/", newId, "", []⟩ :=
  dbFind_dbPut_same _ ⟨container, name ++ "/", newId, "", []⟩

theorem create_count_self (db : TreeDB) (newId : String) (container : TPath) (name : String) :
    dbCount (dbPut (dbPut db ⟨container ++ [name], ".", newId, newId, []⟩)
        ⟨container, name ++ "/", newId, "", []⟩) (container ++ [name]) "." = 1 := by
  rw [dbCount_dbPut_ne]
  · exact dbCount_dbPut_same db ⟨container ++ [name], ".", newId, newId, []⟩
  · intro hcon
    exact self_ne_append_singleton container name hcon.1

theorem create_count_child (db : TreeDB) (newId : String) (container : TPath) (name : String) :
    dbCount (dbPut (dbPut db ⟨container ++ [name], ".", newId, newId, []⟩)
        ⟨container, name ++ "/", newId, "", []⟩) container (name ++ "/") = 1 :=
  dbCount_dbPut_same _ ⟨container, name ++ "/", newId, "", []⟩

theorem create_keeps_parent (db : TreeDB) (newId : String) (container : TPath)
    (name : String) (pe : TreeEntry) (h1 : collectionFind db container = some pe) :
    collectionFind (dbPut (dbPut db ⟨container ++ [name], ".", newId, newId, []⟩)
        ⟨container, name ++ "/", newId, "", []⟩) container = some pe := by
  unfold collectionFind
  rw [dbFind_dbPut_ne]
  · rw [dbFind_dbPut_ne]
    · exact h1
    · intro hcon
      exact self_ne_append_singleton container name hcon.1.symm
  · intro hcon
    exact append_slash_ne_dot name hcon.2

theorem create_keeps_no_resource (db : TreeDB) (newId : String) (container : TPath)
    (name : String) (h2 : resourceFind db container name = none) :
    resourceFind (dbPut (dbPut db ⟨container ++ [name], ".", newId, newId, []⟩)
        ⟨container, name ++ "/", newId, "", []⟩) container name = none := by
  unfold resourceFind at h2 ⊢
  rw [dbFind_dbPut_ne]
  · rw [dbFind_dbPut_ne]
    · exact h2
    · intro hcon
      exact self_ne_append_singleton container name hcon.1.symm
  · intro hcon
    exact append_slash_ne_self name hcon.2

theorem collectionDelete_kills_self (db : TreeDB) (path : TPath) :
    collectionFind (collectionDelete db path) path = none := by
  unfold collectionDelete collectionFind dbDeleteRow dbFind
  rw [List.find?_eq_none]
  intro x hx
  rcases List.mem_filter.mp hx with ⟨hx1, -⟩
  rcases List.mem_filter.mp hx1 with ⟨-, hne⟩
  simp at hne ⊢
  intro hc
  exact absurd hc hne

theorem collectionDelete_kills_child (db : TreeDB) (container : TPath) (name : String) :
    dbFind (collectionDelete db (container ++ [name])) container (name ++ "/") = none := by
  unfold collectionDelete dbDeleteRow dbFind
  rw [List.find?_eq_none]
  intro x hx
  rcases List.mem_filter.mp hx with ⟨-, hne⟩
  simp [pathBasename, List.getLastD_concat] at hne ⊢
  tauto

/-- C3: after a successful createCollection at a non-root path, exactly
one self record at (path, dot) and exactly one child record at
(parent, basename slash) exist, and both carry the generated id; after
deleteCollection at that path, neither of the two records exists in any
store state. -/
theorem C3_tree_pairing (db : TreeDB) (newId : String) (container : TPath) (name : String)
    (db2 : TreeDB) (res : Option TreeEntry) (db3 : TreeDB)
    (h : collectionCreate db newId container name = .ok (db2, res)) :
    dbCount db2 (container ++ [name]) "." = 1 ∧
    dbCount db2 container (name ++ "/") = 1 ∧
    dbFind db2 (container ++ [name]) "." = some ⟨container ++ [name], ".", newId, newId, []⟩ ∧
    dbFind db2 container (name ++ "/") = some ⟨container, name ++ "/", newId, "", []⟩ ∧
    collectionFind (collectionDelete db3 (container ++ [name])) (container ++ [name]) = none ∧
    dbFind (collectionDelete db3 (container ++ [name])) container (name ++ "/") = none := by
  obtain ⟨-, -, -, hdb2⟩ := collectionCreate_ok_inv db newId container name db2 res h
  subst hdb2
  exact ⟨create_count_self db newId container name,
         create_count_child db newId container name,
         create_writes_self db newId container name,
         create_writes_child db newId container name,
         collectionDelete_kills_self db3 (container ++ [name]),
         collectionDelete_kills_child db3 container name⟩

theorem C3_tree_pairing_witness :
    dbCount [⟨[], ".", "rootid", "rootid", []⟩, ⟨["a"], ".", "id1", "id1", []⟩,
        ⟨[], "a/", "id1", "", []⟩] (["a"] : TPath) "." = 1 ∧
    dbCount [⟨[], ".", "rootid", "rootid", []⟩, ⟨["a"], ".", "id1", "id1", []⟩,
        ⟨[], "a/", "id1", "", []⟩] ([] : TPath) "a/" = 1 ∧
    dbFind [⟨[], ".", "rootid", "rootid", []⟩, ⟨["a"], ".", "id1", "id1", []⟩,
        ⟨[], "a/", "id1", "", []⟩] (["a"] : TPath) "." = some ⟨["a"], ".", "id1", "id1", []⟩ ∧
    dbFind [⟨[], ".", "rootid", "rootid", []⟩, ⟨["a"], ".", "id1", "id1", []⟩,
        ⟨[], "a/", "id1", "", []⟩] ([] : TPath) "a/" = some ⟨[], "a/", "id1", "", []⟩ ∧
    collectionFind (collectionDelete [⟨[], ".", "rootid", "rootid", []⟩,
        ⟨["a"], ".", "id1", "id1", []⟩, ⟨[], "a/", "id1", "", []⟩] ["a"]) ["a"] = none ∧
    dbFind (collectionDelete [⟨[], ".", "rootid", "rootid", []⟩,
        ⟨["a"], ".", "id1", "id1", []⟩, ⟨[], "a/", "id1", "", []⟩] ["a"]) ([] : TPath) "a/"
      = none :=
  C3_tree_pairing [⟨[], ".", "rootid", "rootid", []⟩] "id1" [] "a"
    [⟨[], ".", "rootid", "rootid", []⟩, ⟨["a"], ".", "id1", "id1", []⟩, ⟨[], "a/", "id1", "", []⟩]
    (some ⟨["a"], ".", "id1", "id1", []⟩)
    [⟨[], ".", "rootid", "rootid", []⟩, ⟨["a"], ".", "id1", "id1", []⟩, ⟨[], "a/", "id1", "", []⟩]
    rfl

/-- C4: createCollection fails with NoSuchCollection when the parent has
no self record, fails with ResourceConflict when an object row occupies
the target name, fails with CollectionConflict when a collection self
record occupies the target path, and otherwise writes the self record
and the parent's child record sharing the generated id and returns the
resulting Collection; a second identical create against the resulting
state fails with CollectionConflict. -/
theorem C4_create_cases (db : TreeDB) (newId newId2 : String) (container : TPath)
    (name : String) :
    (collectionFind db container = none →
      collectionCreate db newId container name = .error .noSuchCollection) ∧
    (∀ pe re, collectionFind db container = some pe →
      resourceFind db container name = some re →
      collectionCreate db newId container name = .error .resourceConflict) ∧
    (∀ pe ce, collectionFind db container = some pe →
      resourceFind db container name = none →
      collectionFind db (container ++ [name]) = some ce →
      collectionCreate db newId container name = .error .collectionConflict) ∧
    (∀ pe, collectionFind db container = some pe →
      resourceFind db container name = none →
      collectionFind db (container ++ [name]) = none →
      collectionCreate db newId container name =
        .ok (dbPut (dbPut db ⟨container ++ [name], ".", newId, newId, []⟩)
               ⟨container, name ++ "/", newId, "", []⟩,
             some ⟨container ++ [name], ".", newId, newId, []⟩)) ∧
    (∀ db2 res, collectionCreate db newId container name = .ok (db2, res) →
      collectionCreate db2 newId2 container name = .error .collectionConflict) := by
  refine ⟨?_, ?_, ?_, ?_, ?_⟩
  · intro h1
    simp [collectionCreate, h1]
  · intro pe re h1 h2
    simp [collectionCreate, h1, h2]
  · intro pe ce h1 h2 h3
    simp [collectionCreate, h1, h2, h3]
  · intro pe h1 h2 h3
    simp [collectionCreate, h1, h2, h3, create_writes_self]
  · intro db2 res h
    obtain ⟨⟨pe, hparent⟩, hres, htarget, hdb2⟩ :=
      collectionCreate_ok_inv db newId container name db2 res h
    subst hdb2
    have h1' := create_keeps_parent db newId container name pe hparent
    have h2' := create_keeps_no_resource db newId container name hres
    have h3' := create_writes_self db newId container name
    simp [collectionCreate, h1', h2', h3']

theorem C4_create_cases_witness :
    collectionCreate [] "n1" [] "a" = .error CreateErr.noSuchCollection ∧
    collectionCreate [⟨[], ".", "r", "r", []⟩, ⟨[], "a", "obj", "", []⟩] "n1" [] "a"
      = .error CreateErr.resourceConflict ∧
    collectionCreate [⟨[], ".", "r", "r", []⟩, ⟨["a"], ".", "x", "x", []⟩] "n1" [] "a"
      = .error CreateErr.collectionConflict ∧
    collectionCreate [⟨[], ".", "r", "r", []⟩] "n1" [] "a"
      = .ok ([⟨[], ".", "r", "r", []⟩, ⟨["a"], ".", "n1", "n1", []⟩, ⟨[], "a/", "n1", "", []⟩],
             some ⟨["a"], ".", "n1", "n1", []⟩) ∧
    collectionCreate [⟨[], ".", "r", "r", []⟩, ⟨["a"], ".", "n1", "n1", []⟩,
        ⟨[], "a/", "n1", "", []⟩] "n2" [] "a" = .error CreateErr.collectionConflict :=
  ⟨(C4_create_cases [] "n1" "n2" [] "a").1 rfl,
   (C4_create_cases [⟨[], ".", "r", "r", []⟩, ⟨[], "a", "obj", "", []⟩] "n1" "n2" [] "a").2.1
     ⟨[], ".", "r", "r", []⟩ ⟨[], "a", "obj", "", []⟩ rfl rfl,
   (C4_create_cases [⟨[], ".", "r", "r", []⟩, ⟨["a"], ".", "x", "x", []⟩] "n1" "n2" [] "a").2.2.1
     ⟨[], ".", "r", "r", []⟩ ⟨["a"], ".", "x", "x", []⟩ rfl rfl rfl,
   (C4_create_cases [⟨[], ".", "r", "r", []⟩] "n1" "n2" [] "a").2.2.2.1
     ⟨[], ".", "r", "r", []⟩ rfl rfl rfl,
   (C4_create_cases [⟨[], ".", "r", "r", []⟩] "n1" "n2" [] "a").2.2.2.2
     [⟨[], ".", "r", "r", []⟩, ⟨["a"], ".", "n1", "n1", []⟩, ⟨[], "a/", "n1", "", []⟩]
     (some ⟨["a"], ".", "n1", "n1", []⟩) rfl⟩

theorem applyAce_mono (acts : ActionSet) (lvl : String) :
    (acts.write = true → (applyAce acts lvl).write = true) ∧
    (acts.delete = true → (applyAce acts lvl).delete = true) ∧
    (acts.edit = true → (applyAce acts lvl).edit = true) := by
  unfold applyAce
  split_ifs <;> simp

theorem aclStep_mono (acl : Acl) (acts : ActionSet) (gid : String) :
    (acts.write = true → (aclStep acl acts gid).write = true) ∧
    (acts.delete = true → (aclStep acl acts gid).delete = true) ∧
    (acts.edit = true → (aclStep acl acts gid).edit = true) := by
  unfold aclStep
  cases aclLookup acl gid with
  | none => simp
  | some ace => exact applyAce_mono acts (acemask_to_str ace.acemask false)

theorem foldl_aclStep_mono (acl : Acl) (l : List String) :
    ∀ acts : ActionSet,
      (acts.write = true → (l.foldl (aclStep acl) acts).write = true) ∧
      (acts.delete = true → (l.foldl (aclStep acl) acts).delete = true) ∧
      (acts.edit = true → (l.foldl (aclStep acl) acts).edit = true) := by
  induction l with
  | nil => intro acts; simp
  | cons g t ih =>
    intro acts
    rw [List.foldl_cons]
    exact ⟨fun h => (ih _).1 ((aclStep_mono acl acts g).1 h),
           fun h => (ih _).2.1 ((aclStep_mono acl acts g).2.1 h),
           fun h => (ih _).2.2 ((aclStep_mono acl acts g).2.2 h)⟩

theorem foldl_aclStep_write_hit (acl : Acl) (l : List String) (G : String) (ace : Ace)
    (hace : aclLookup acl G = some ace)
    (hlvl : acemask_to_str ace.acemask false = "write") :
    ∀ acts : ActionSet, G ∈ l →
      (l.foldl (aclStep acl) acts).write = true ∧
      (l.foldl (aclStep acl) acts).delete = true ∧
      (l.foldl (aclStep acl) acts).edit = true := by
  induction l with
  | nil =>
    intro acts hmem
    exact absurd hmem (List.not_mem_nil G)
  | cons g t ih =>
    intro acts hmem
    rw [List.foldl_cons]
    rcases List.mem_cons.mp hmem with heq | hmem2
    · subst heq
      have hstep : (aclStep acl acts G).write = true ∧ (aclStep acl acts G).delete = true ∧
          (aclStep acl acts G).edit = true := by
        simp [aclStep, hace, hlvl, applyAce]
      exact ⟨(foldl_aclStep_mono acl t _).1 hstep.1,
             (foldl_aclStep_mono acl t _).2.1 hstep.2.1,
             (foldl_aclStep_mono acl t _).2.2 hstep.2.2⟩
    · exact ih _ hmem2

theorem computeActions_write_grant (user : User) (acl : Acl) (G : String) (ace : Ace)
    (hG : G ∈ user.groups) (hace : aclLookup acl G = some ace)
    (hlvl : acemask_to_str ace.acemask false = "write") :
    (computeActions user acl).write = true ∧ (computeActions user acl).delete = true ∧
    (computeActions user acl).edit = true := by
  unfold computeActions
  exact foldl_aclStep_write_hit acl _ G ace hace hlvl ActionSet.empty
    (List.mem_append_left _ hG)

/-- C5: a child collection with empty own ACL under a parent whose ACL
grants level write to a group of the user resolves to an action set
containing write, delete and edit; the root with empty ACL resolves to
the empty set for any user; and a node with a non-empty own ACL resolves
from that ACL alone, never consulting an ancestor. -/
theorem C5_acl_inheritance (db : TreeDB) (user : User) (parent : TPath) (c G : String)
    (pe : TreeEntry) (ace : Ace)
    (hfind : collectionFind db parent = some pe)
    (hG : G ∈ user.groups)
    (hace : aclLookup pe.container_acl G = some ace)
    (hlvl : acemask_to_str ace.acemask false = "write") :
    ((getAuthorizedActions db user [] (parent ++ [c])).map
        (fun a => (a.write, a.delete, a.edit)) = some (true, true, true)) ∧
    (∀ (db2 : TreeDB) (u2 : User), getAuthorizedActions db2 u2 [] [] = some ActionSet.empty) ∧
    (∀ (db2 : TreeDB) (u2 : User) (acl2 : Acl) (p2 : TPath), acl2 ≠ [] →
      getAuthorizedActions db2 u2 acl2 p2 = some (computeActions u2 acl2)) := by
  have hne : pe.container_acl ≠ [] := by
    intro hnil
    rw [hnil] at hace
    simp [aclLookup] at hace
  have h1 : getAuthorizedActions db user [] (parent ++ [c]) =
      getAuthorizedActions db user pe.container_acl parent := by
    rw [getAuthorizedActions.eq_def]
    simp [hfind]
  have h2 : getAuthorizedActions db user pe.container_acl parent =
      some (computeActions user pe.container_acl) := by
    rw [getAuthorizedActions.eq_def]
    simp [hne]
  refine ⟨?_, ?_, ?_⟩
  · rw [h1, h2]
    obtain ⟨hw, hd, he⟩ := computeActions_write_grant user pe.container_acl G ace hG hace hlvl
    simp [hw, hd, he]
  · intro db2 u2
    rw [getAuthorizedActions.eq_def]
    simp
  · intro db2 u2 acl2 p2 hne2
    rw [getAuthorizedActions.eq_def]
    simp [hne2]

theorem C5_acl_inheritance_witness :
    ((getAuthorizedActions [⟨[], ".", "r", "r", [("g", ⟨"ALLOW", "g", 0, 2⟩)]⟩]
        ⟨false, ["g"]⟩ [] ["x"]).map (fun a => (a.write, a.delete, a.edit))
      = some (true, true, true)) ∧
    getAuthorizedActions [] ⟨false, []⟩ [] [] = some ActionSet.empty ∧
    getAuthorizedActions [] ⟨false, []⟩ [("h", ⟨"ALLOW", "h", 0, 1⟩)] ["p"]
      = some (computeActions ⟨false, []⟩ [("h", ⟨"ALLOW", "h", 0, 1⟩)]) := by
  have h := C5_acl_inheritance [⟨[], ".", "r", "r", [("g", ⟨"ALLOW", "g", 0, 2⟩)]⟩]
    ⟨false, ["g"]⟩ [] "x" "g" ⟨[], ".", "r", "r", [("g", ⟨"ALLOW", "g", 0, 2⟩)]⟩
    ⟨"ALLOW", "g", 0, 2⟩ rfl (by decide) rfl (by decide)
  exact ⟨h.1, h.2.1 [] ⟨false, []⟩,
         h.2.2 [] ⟨false, []⟩ [("h", ⟨"ALLOW", "h", 0, 1⟩)] ["p"] (by decide)⟩

/-- Every ancestor of the path — every proper prefix, the root
included — has a self record in the store. -/
def ancestorsHaveSelf (db : TreeDB) (path : TPath) : Prop :=
  ∀ k : Nat, k < path.length → (collectionFind db (path.take k)).isSome = true

theorem getAuthorizedActions_isSome_of_ancestors (db : TreeDB) (user : User) :
    ∀ (n : Nat) (path : TPath), path.length ≤ n → ∀ acl : Acl,
      ancestorsHaveSelf db path → (getAuthorizedActions db user acl path).isSome = true := by
  intro n
  induction n with
  | zero =>
    intro path hlen acl _
    have hp : path = [] := List.eq_nil_of_length_eq_zero (Nat.le_zero.mp hlen)
    subst hp
    rw [getAuthorizedActions.eq_def]
    by_cases hacl : acl = [] <;> simp [hacl]
  | succ n ih =>
    intro path hlen acl hanc
    by_cases hacl : acl = []
    · subst hacl
      by_cases hp : path = []
      · subst hp
        rw [getAuthorizedActions.eq_def]
        simp
      · have hlt : path.length - 1 < path.length :=
          Nat.sub_lt (List.length_pos.mpr hp) Nat.one_pos
        have hsome := hanc (path.length - 1) hlt
        rw [← List.dropLast_eq_take] at hsome
        obtain ⟨e, he⟩ := Option.isSome_iff_exists.mp hsome
        have hanc2 : ancestorsHaveSelf db path.dropLast := by
          intro k hk
          rw [List.length_dropLast] at hk
          rw [List.dropLast_eq_take, List.take_take, Nat.min_eq_left (Nat.le_of_lt hk)]
          exact hanc k (lt_trans hk hlt)
        have hlen2 : path.dropLast.length ≤ n := by
          rw [List.length_dropLast]
          omega
        have hrec := ih path.dropLast hlen2 e.container_acl hanc2
        rw [getAuthorizedActions.eq_def]
        simp [hp, he, hrec]
    · rw [getAuthorizedActions.eq_def]
      simp [hacl]

/-- C10: when the own ACL is empty and the node is not the root, the
resolver looks up the parent and recurses on the result with no
not-found check, so an absent parent makes resolution fail (the source's
AttributeError, the value none here); under the precondition that every
ancestor of the collection has a self record, that branch is unreachable
and resolution always returns an action set. -/
theorem C10_resolution_total (db : TreeDB) (user : User) (acl : Acl) (path : TPath)
    (_hnr : path ≠ []) (hanc : ancestorsHaveSelf db path) :
    (∀ (db2 : TreeDB) (u2 : User) (p2 : TPath), p2 ≠ [] →
      collectionFind db2 p2.dropLast = none →
      getAuthorizedActions db2 u2 [] p2 = none) ∧
    (getAuthorizedActions db user acl path).isSome = true := by
  constructor
  · intro db2 u2 p2 hp2 hnone
    rw [getAuthorizedActions.eq_def]
    simp [hp2, hnone]
  · exact getAuthorizedActions_isSome_of_ancestors db user path.length path (le_refl _) acl hanc

theorem C10_resolution_total_witness :
    (getAuthorizedActions [⟨[], ".", "r", "r", []⟩, ⟨["a"], ".", "i", "i", []⟩]
        ⟨false, []⟩ [] ["a"]).isSome = true ∧
    getAuthorizedActions [] ⟨false, []⟩ [] ["b"] = none := by
  have h := C10_resolution_total [⟨[], ".", "r", "r", []⟩, ⟨["a"], ".", "i", "i", []⟩]
    ⟨false, []⟩ [] ["a"] (by decide)
    (by
      intro k hk
      have hk0 : k = 0 := by
        simp at hk
        omega
      subst hk0
      decide)
  exact ⟨h.2, h.1 [] ⟨false, []⟩ ["b"] (by decide) rfl⟩
